import Mathlib

/-!
Shallow embedding of the duplicate-group reconciliation engine of
immich-duplicate-cleaner (src/main.go): the filename classifier
(isOriginalFilename), the quality ranker (selectBestQualityAsset), the
album reconciler (synchronizeAlbums), the deletion phase
(autoDeleteDuplicates) and the per-group orchestrator
(processDuplicateGroup).

Modelling conventions:
- Go strings are Lean String values; character-level operations
  (strings.ToUpper, strings.HasPrefix restricted to the ASCII prefixes used
  here) are modelled on String.data with Char.toUpper.
- Go maps iterated with range have an unspecified iteration order; a map
  together with one iteration order is modelled as an association list, and
  theorems quantify over all lists, hence over all iteration orders.
- time.Time with its Before comparison is modelled as Int with strict
  less-than.
- The remote gateway (HTTP calls) is modelled by oracle functions passed as
  parameters; an Except value stands for the (value, err) pair a call
  returns.  Writes issued through the gateway are recorded in the result so
  that frame properties can be stated.
-/

namespace Immich

/-- ExifInfo mirrors the Go struct ExifInfo: file size in bytes (int64),
image width and height.  Sizes are modelled as Int, matching int64. -/
structure ExifInfo where
  fileSizeInByte : Int
  imageWidth : Int
  imageHeight : Int
deriving DecidableEq, Inhabited

/-- AssetDetails mirrors the Go struct AssetDetails: id, original filename,
optional EXIF block (nil pointer becomes none) and creation timestamp
(time.Time, modelled as Int, compared with strict less-than as Before). -/
structure AssetDetails where
  id : String
  originalFileName : String
  exifInfo : Option ExifInfo
  fileCreatedAt : Int
deriving DecidableEq, Inhabited

/-- The fixed prefix list of isOriginalFilename in src/main.go. -/
def cameraPrefixes : List String := ["IMG_", "DSC_", "DSCN", "P_", "PHOTO_", "VID_"]

/-- isOriginalFilename from src/main.go: uppercase the filename, return
false when it starts with one of the fixed prefixes, true otherwise.
The Go strings.ToUpper call is per-rune uppercasing, modelled with Char.toUpper
over the character list; the loop returning false on the first matching
prefix is the conjunction over the prefix list. -/
def isOriginalFilename (filename : String) : Bool :=
  let upper := filename.data.map Char.toUpper
  cameraPrefixes.all (fun p => !(p.data.isPrefixOf upper))

/-- Modelled from the spec (section 4.1): a filename is camera-generated
when, case-insensitively, it starts with one of the fixed prefixes, i.e.
uppercasing the filename character-wise yields a string starting with the
(already uppercase) prefix. -/
def specCameraGenerated (f : String) : Prop :=
  ∃ p ∈ cameraPrefixes, p.data.isPrefixOf (f.data.map Char.toUpper) = true

instance (f : String) : Decidable (specCameraGenerated f) := by
  unfold specCameraGenerated; infer_instance

/-- Loop state of selectBestQualityAsset: bestID and bestSize are the Go
locals; bestDetails carries the value the Go code reads back as
assets[bestID] (the map is never mutated and its keys are unique, so the
lookup always returns the entry that set bestID). -/
structure BestState where
  bestID : String
  bestDetails : AssetDetails
  bestSize : Int
deriving DecidableEq, Inhabited

/-- Initial state of the selection loop: bestID empty, bestSize -1. -/
def initState : BestState := { bestID := "", bestDetails := default, bestSize := -1 }

/-- One iteration of the selectBestQualityAsset loop body from src/main.go:
skip candidates without ExifInfo; a strictly larger size wins; on equal
size (and a non-empty current best) an original filename beats a
non-original one, otherwise a strictly earlier creation date wins. -/
def compareCandidate (st : BestState) (entry : String × AssetDetails) : BestState :=
  match entry.2.exifInfo with
  | none => st
  | some exif =>
    let size := exif.fileSizeInByte
    if st.bestSize < size then
      { bestID := entry.1, bestDetails := entry.2, bestSize := size }
    else if size = st.bestSize ∧ st.bestID ≠ "" then
      if isOriginalFilename entry.2.originalFileName
          && !(isOriginalFilename st.bestDetails.originalFileName) then
        { st with bestID := entry.1, bestDetails := entry.2 }
      else if entry.2.fileCreatedAt < st.bestDetails.fileCreatedAt then
        { st with bestID := entry.1, bestDetails := entry.2 }
      else st
    else st

/-- selectBestQualityAsset from src/main.go, over one iteration sequence of
the candidate map (an association list of assetID keys and details). -/
def selectBestQualityAsset (assets : List (String × AssetDetails)) : String :=
  (assets.foldl compareCandidate initState).bestID

/-- Album mirrors the Go struct Album; the reconciler reads only the ID and
AlbumName fields (Assets and AssetCount are never consulted by the core). -/
structure Album where
  id : String
  albumName : String
deriving DecidableEq, Inhabited

/-- DuplicateAsset mirrors the Go struct DuplicateAsset. -/
structure DuplicateAsset where
  id : String
deriving DecidableEq, Inhabited

/-- DuplicateGroup mirrors the Go struct DuplicateGroup. -/
structure DuplicateGroup where
  duplicateId : String
  assets : List DuplicateAsset
deriving DecidableEq, Inhabited

/-- Config mirrors the Go struct Config. -/
structure Config where
  immichURL : String
  apiKey : String
  autoDelete : Bool
  dryRun : Bool
  yes : Bool
  verbose : Bool
deriving DecidableEq, Inhabited

/-- Gateway oracle for getAlbumsForAsset: the (albums, err) pair returned
for a given asset id. -/
abbrev FetchAlbums := String → Except String (List Album)

/-- Gateway oracle for addAssetsToAlbum: success or error of the write. -/
abbrev AddAssets := String → List String → Except String Unit

/-- Gateway oracle for getAssetDetails. -/
abbrev GetDetails := String → Except String AssetDetails

/-- Gateway oracle for deleteAsset. -/
abbrev DeleteCall := String → Except String Unit

/-- Insertion into the allAlbumIDs set (a Go map used as a set), modelled
as a duplicate-free list in first-insertion order; theorems about counts
and write sets do not depend on this order. -/
def insertAlbumID (ids : List String) (x : String) : List String :=
  if x ∈ ids then ids else ids ++ [x]

/-- Body of the first loop of synchronizeAlbums in src/main.go: a failed
fetch skips the asset; a successful one records its albums in the
assetAlbums association list and collects every album id into
allAlbumIDs. -/
def fetchStep (fetch : FetchAlbums)
    (acc : List (String × List Album) × List String) (asset : DuplicateAsset) :
    List (String × List Album) × List String :=
  match fetch asset.id with
  | .error _ => acc
  | .ok albums =>
    (acc.1 ++ [(asset.id, albums)],
     albums.foldl (fun ids album => insertAlbumID ids album.id) acc.2)

/-- First loop of synchronizeAlbums: the assetAlbums association list and
the allAlbumIDs union after visiting every group asset. -/
def fetchAssetAlbums (fetch : FetchAlbums) (assets : List DuplicateAsset) :
    List (String × List Album) × List String :=
  assets.foldl (fetchStep fetch) ([], [])

/-- Go map read assetAlbums[asset.ID]: a missing key yields the nil slice,
i.e. the empty list. -/
def lookupAlbums (assetAlbums : List (String × List Album)) (assetID : String) :
    List Album :=
  match assetAlbums.lookup assetID with
  | some albums => albums
  | none => []

/-- Inner loop of synchronizeAlbums: the group assets not found in the
album with the given id (assetsToAdd), in group order. -/
def assetsToAddFor (assetAlbums : List (String × List Album))
    (assets : List DuplicateAsset) (albumID : String) : List String :=
  (assets.filter (fun asset =>
      !((lookupAlbums assetAlbums asset.id).any
        (fun album => album.id == albumID)))).map DuplicateAsset.id

/-- Record of one addAssetsToAlbum call issued by the reconciler: the album,
the batched asset ids, and whether the gateway reported success. -/
structure SyncWrite where
  albumID : String
  assetIDs : List String
  ok : Bool
deriving DecidableEq, Inhabited

/-- Body of the per-album loop of synchronizeAlbums: skip albums with no
missing assets; in dry-run count the would-be additions without a write;
otherwise issue the write, counting its assets only on success. -/
def syncStep (config : Config) (add : AddAssets)
    (assetAlbums : List (String × List Album)) (assets : List DuplicateAsset)
    (acc : Nat × List SyncWrite) (albumID : String) : Nat × List SyncWrite :=
  let toAdd := assetsToAddFor assetAlbums assets albumID
  if 0 < toAdd.length then
    if config.dryRun then (acc.1 + toAdd.length, acc.2)
    else
      match add albumID toAdd with
      | .error _ => (acc.1, acc.2 ++ [⟨albumID, toAdd, false⟩])
      | .ok _ => (acc.1 + toAdd.length, acc.2 ++ [⟨albumID, toAdd, true⟩])
  else acc

/-- synchronizeAlbums from src/main.go: returns the Go pair (syncCount, err)
together with the trace of addAssetsToAlbum calls issued, so that frame
properties can be stated.  The returned error is the literal nil of the Go
source. -/
def synchronizeAlbums (config : Config) (fetch : FetchAlbums) (add : AddAssets)
    (group : DuplicateGroup) : Nat × List SyncWrite × Option String :=
  let fetched := fetchAssetAlbums fetch group.assets
  let looped := fetched.2.foldl (syncStep config add fetched.1 group.assets) (0, [])
  (looped.1, looped.2, none)

/-- Total number of (asset, album) pairs in the successful writes of a
trace. -/
def addedPairsCount (writes : List SyncWrite) : Nat :=
  ((writes.filter (fun w => w.ok)).map (fun w => w.assetIDs.length)).sum

/-- Detail-fetch loop of autoDeleteDuplicates: per-asset failures are
skipped; the Go map of details is modelled as an association list in group
order (one iteration order of the map). -/
def fetchDetailsPhase (getDetails : GetDetails) (assets : List DuplicateAsset) :
    List (String × AssetDetails) :=
  assets.foldl (fun acc asset =>
    match getDetails asset.id with
    | .error _ => acc
    | .ok details => acc ++ [(asset.id, details)]) []

/-- strings.EqualFold restricted to the ASCII responses compared in
src/main.go, modelled as equality after character-wise uppercasing. -/
def strEqFold (a b : String) : Bool :=
  a.data.map Char.toUpper == b.data.map Char.toUpper

/-- Outcome of the confirmation prompt in autoDeleteDuplicates: the prompt
is shown only when neither the yes flag nor dry-run is set; a read error or
a non-affirmative response cancels the deletion. -/
def confirmProceed (config : Config) (input : Except String String) : Bool :=
  if !config.yes && !config.dryRun then
    match input with
    | .error _ => false
    | .ok response => strEqFold response "y" || strEqFold response "yes"
  else true

/-- Observable outcome of autoDeleteDuplicates: the deleteAsset calls issued
(with their success flag), the assets logged as would-be deletions in
dry-run, and the returned error. -/
structure DeleteRun where
  deleteCalls : List (String × Bool)
  wouldDelete : List String
  err : Option String
deriving DecidableEq, Inhabited

/-- autoDeleteDuplicates from src/main.go: fetch details (skipping
failures), require at least two usable assets, select the best, compute the
losers, confirm unless suppressed, then delete (or, in dry-run, only log).
The Go per-iteration dry-run test inside the deletion loop is hoisted: the
configuration is constant across the loop. -/
def autoDeleteDuplicates (config : Config) (getDetails : GetDetails)
    (del : DeleteCall) (input : Except String String) (group : DuplicateGroup) :
    DeleteRun :=
  let assetDetails := fetchDetailsPhase getDetails group.assets
  if assetDetails.length < 2 then ⟨[], [], none⟩
  else
    let bestAssetID := selectBestQualityAsset assetDetails
    if bestAssetID = "" then ⟨[], [], some "failed to determine best quality asset"⟩
    else
      let assetsToDelete := (assetDetails.map Prod.fst).filter
        (fun assetID => assetID != bestAssetID)
      if assetsToDelete.length = 0 then ⟨[], [], none⟩
      else if confirmProceed config input then
        if config.dryRun then ⟨[], assetsToDelete, none⟩
        else
          ⟨assetsToDelete.map (fun assetID =>
            (assetID, match del assetID with | .ok _ => true | .error _ => false)),
           [], none⟩
      else ⟨[], [], none⟩

/-- Terminal outcome of processDuplicateGroup for one group. -/
inductive GroupOutcome where
  | skippedSmallGroup : GroupOutcome
  | completed : Nat → Option DeleteRun → GroupOutcome
  | albumSyncFailed : String → GroupOutcome
  | autoDeleteFailed : String → GroupOutcome
deriving DecidableEq

/-- processDuplicateGroup from src/main.go: skip groups with fewer than two
assets, synchronize albums (aborting the group on a returned error), then
run auto-deletion when enabled (aborting on its returned error). -/
def processDuplicateGroup (config : Config) (fetch : FetchAlbums)
    (add : AddAssets) (getDetails : GetDetails) (del : DeleteCall)
    (input : Except String String) (group : DuplicateGroup) : GroupOutcome :=
  if group.assets.length < 2 then .skippedSmallGroup
  else
    let sync := synchronizeAlbums config fetch add group
    match sync.2.2 with
    | some e => .albumSyncFailed e
    | none =>
      if config.autoDelete then
        let run := autoDeleteDuplicates config getDetails del input group
        match run.err with
        | some e => .autoDeleteFailed e
        | none => .completed sync.1 (some run)
      else .completed sync.1 none

/-- Success predicate of a gateway fetch, used to state that failed-fetch
assets contribute nothing to the fetched state. -/
def fetchSucceeds (fetch : FetchAlbums) (asset : DuplicateAsset) : Bool :=
  match fetch asset.id with
  | .ok _ => true
  | .error _ => false

/-- Concrete tied pair used for the order-dependence counterexample. -/
def tieAssetA : AssetDetails := ⟨"a", "x.jpg", some ⟨7, 0, 0⟩, 0⟩

/-- Second element of the concrete tied pair. -/
def tieAssetB : AssetDetails := ⟨"b", "y.jpg", some ⟨7, 0, 0⟩, 0⟩

/-- Original-named asset of the C1 failing input. -/
def c1OriginalAsset : AssetDetails := ⟨"a1", "vacation.jpg", some ⟨100, 0, 0⟩, 2⟩

/-- Camera-named, earlier-dated asset of the C1 failing input. -/
def c1CameraAsset : AssetDetails := ⟨"a2", "IMG_0001.jpg", some ⟨100, 0, 0⟩, 1⟩

/-- Gateway stub whose album fetch fails for asset A and returns album X
for asset B. -/
def c2Fetch : FetchAlbums := fun assetID =>
  if assetID == "B" then .ok [⟨"X", "Album X"⟩] else .error "network failure"

/-- Gateway stub whose album writes always succeed. -/
def okAdd : AddAssets := fun _ _ => .ok ()

/-- Gateway stub whose deletions always succeed. -/
def okDelete : DeleteCall := fun _ => .ok ()

/-- Detail stub returning a fixed pair of distinct-size assets. -/
def wDetails : GetDetails := fun assetID =>
  if assetID == "A" then .ok ⟨"A", "a.jpg", some ⟨10, 0, 0⟩, 0⟩
  else if assetID == "B" then .ok ⟨"B", "b.jpg", some ⟨20, 0, 0⟩, 0⟩
  else .error "not found"

/-- Non-preview configuration used in concrete scenarios. -/
def wetConfig : Config := ⟨"http://immich", "key", false, false, false, false⟩

/-- Two-asset group used in concrete scenarios. -/
def c2Group : DuplicateGroup := ⟨"g1", [⟨"A"⟩, ⟨"B"⟩]⟩

/-- Gateway stub where asset A is in album X and asset B is in no album. -/
def c8Fetch : FetchAlbums := fun assetID =>
  if assetID == "A" then .ok [⟨"X", "Album X"⟩]
  else if assetID == "B" then .ok [] else .error "not found"

/-! ## Lemmas about the quality ranker loop -/

/-- Candidates without EXIF metadata leave the loop state unchanged. -/
theorem compareCandidate_none (st : BestState) (e : String × AssetDetails)
    (h : e.2.exifInfo = none) : compareCandidate st e = st := by
  simp [compareCandidate, h]

/-- A strictly larger candidate replaces the loop state. -/
theorem compareCandidate_gt (st : BestState) (e : String × AssetDetails)
    (ex : ExifInfo) (h : e.2.exifInfo = some ex)
    (hlt : st.bestSize < ex.fileSizeInByte) :
    compareCandidate st e = ⟨e.1, e.2, ex.fileSizeInByte⟩ := by
  simp [compareCandidate, h, hlt]

/-- A strictly smaller candidate leaves the loop state unchanged. -/
theorem compareCandidate_lt (st : BestState) (e : String × AssetDetails)
    (ex : ExifInfo) (h : e.2.exifInfo = some ex)
    (hlt : ex.fileSizeInByte < st.bestSize) :
    compareCandidate st e = st := by
  have h1 : ¬ st.bestSize < ex.fileSizeInByte := by omega
  have h2 : ¬ (ex.fileSizeInByte = st.bestSize ∧ st.bestID ≠ "") :=
    fun hc => absurd hc.1 (by omega)
  simp [compareCandidate, h, h1, h2]

/-- A candidate that repeats the current best entry leaves the state
unchanged: equal sizes, identical originality and equal timestamps keep
the current best. -/
theorem compareCandidate_self (st : BestState) (e : String × AssetDetails)
    (ex : ExifInfo) (h : e.2.exifInfo = some ex)
    (heq : ex.fileSizeInByte = st.bestSize) (hd : e.2 = st.bestDetails) :
    compareCandidate st e = st := by
  have h1 : ¬ st.bestSize < ex.fileSizeInByte := by omega
  by_cases hid : st.bestID = ""
  · have h2 : ¬ (ex.fileSizeInByte = st.bestSize ∧ st.bestID ≠ "") :=
      fun hc => hc.2 hid
    simp [compareCandidate, h, h1, h2]
  · simp only [compareCandidate, h]
    rw [if_neg h1, if_pos ⟨heq, hid⟩, hd]
    simp

/-- Each loop iteration either keeps the current best id or switches to the
candidate at hand. -/
theorem compareCandidate_bestID (st : BestState) (e : String × AssetDetails) :
    (compareCandidate st e).bestID = st.bestID ∨
      (compareCandidate st e).bestID = e.1 := by
  unfold compareCandidate
  cases e.2.exifInfo with
  | none => exact Or.inl rfl
  | some ex =>
    simp only
    split
    · exact Or.inr rfl
    · split
      · split
        · exact Or.inr rfl
        · split
          · exact Or.inr rfl
          · exact Or.inl rfl
      · exact Or.inl rfl

/-- A strict size bound on the state and on the candidate is preserved by
one loop iteration. -/
theorem compareCandidate_bestSize_lt (st : BestState)
    (e : String × AssetDetails) (s : Int) (hst : st.bestSize < s)
    (he : ∀ ex, e.2.exifInfo = some ex → ex.fileSizeInByte < s) :
    (compareCandidate st e).bestSize < s := by
  unfold compareCandidate
  cases hx : e.2.exifInfo with
  | none => exact hst
  | some ex =>
    have hlt := he ex hx
    simp only
    split
    · exact hlt
    · split
      · split
        · exact hst
        · split
          · exact hst
          · exact hst
      · exact hst

/-- The loop state is a fixed point over a list whose entries are all
strictly smaller than the current best size or repeat the current best. -/
theorem foldl_stable (l : List (String × AssetDetails)) (st : BestState)
    (h : ∀ e ∈ l, ∀ ex, e.2.exifInfo = some ex →
        ex.fileSizeInByte < st.bestSize ∨
          (e.2 = st.bestDetails ∧ ex.fileSizeInByte = st.bestSize)) :
    l.foldl compareCandidate st = st := by
  induction l with
  | nil => rfl
  | cons e t ih =>
    have hstep : compareCandidate st e = st := by
      cases hx : e.2.exifInfo with
      | none => exact compareCandidate_none st e hx
      | some ex =>
        rcases h e (List.mem_cons_self e t) ex hx with hlt | ⟨hd, heq⟩
        · exact compareCandidate_lt st e ex hx hlt
        · exact compareCandidate_self st e ex hx heq hd
    rw [List.foldl_cons, hstep]
    exact ih (fun p hp => h p (List.mem_cons_of_mem e hp))

/-- Over a list containing an entry whose size strictly exceeds the current
best size and the size of every other entry, the loop ends at that entry. -/
theorem foldl_unique_max (e : String × AssetDetails) (ex : ExifInfo)
    (hex : e.2.exifInfo = some ex) :
    ∀ (l : List (String × AssetDetails)) (st : BestState), e ∈ l →
      st.bestSize < ex.fileSizeInByte →
      (∀ p ∈ l, p ≠ e → ∀ ex2, p.2.exifInfo = some ex2 →
        ex2.fileSizeInByte < ex.fileSizeInByte) →
      l.foldl compareCandidate st = ⟨e.1, e.2, ex.fileSizeInByte⟩ := by
  intro l
  induction l with
  | nil => intro st he; cases he
  | cons hd t ih =>
    intro st he hst hmax
    by_cases hhd : hd = e
    · subst hhd
      rw [List.foldl_cons, compareCandidate_gt st hd ex hex hst]
      apply foldl_stable
      intro p hp ex2 hex2
      by_cases hpe : p = hd
      · subst hpe
        refine Or.inr ⟨rfl, ?_⟩
        rw [hex] at hex2
        injection hex2 with h2
        rw [h2]
      · exact Or.inl (hmax p (List.mem_cons_of_mem hd hp) hpe ex2 hex2)
    · have het : e ∈ t := by
        rcases List.mem_cons.mp he with h1 | h1
        · exact absurd h1.symm hhd
        · exact h1
      rw [List.foldl_cons]
      exact ih (compareCandidate st hd) het
        (compareCandidate_bestSize_lt st hd ex.fileSizeInByte hst
          (fun ex2 hx2 => hmax hd (List.mem_cons_self hd t) hhd ex2 hx2))
        (fun p hp hpe ex2 hx2 =>
          hmax p (List.mem_cons_of_mem hd hp) hpe ex2 hx2)

/-- On equal sizes and equal originality class, one loop iteration keeps
the current best unless the candidate has a strictly earlier timestamp. -/
theorem compareCandidate_eq_same_class (st : BestState)
    (e : String × AssetDetails) (ex : ExifInfo) (hex : e.2.exifInfo = some ex)
    (heq : ex.fileSizeInByte = st.bestSize) (hid : st.bestID ≠ "")
    (hclass : isOriginalFilename e.2.originalFileName
        = isOriginalFilename st.bestDetails.originalFileName) :
    compareCandidate st e =
      if e.2.fileCreatedAt < st.bestDetails.fileCreatedAt then
        { st with bestID := e.1, bestDetails := e.2 }
      else st := by
  have h1 : ¬ st.bestSize < ex.fileSizeInByte := by omega
  simp only [compareCandidate, hex]
  rw [if_neg h1, if_pos ⟨heq, hid⟩, hclass]
  simp

/-- The loop never moves to an empty best id when every key is non-empty. -/
theorem foldl_bestID_nonempty :
    ∀ (l : List (String × AssetDetails)) (st : BestState), st.bestID ≠ "" →
      (∀ p ∈ l, p.1 ≠ "") → (l.foldl compareCandidate st).bestID ≠ "" := by
  intro l
  induction l with
  | nil => intro st hst _; exact hst
  | cons hd t ih =>
    intro st hst hl
    rw [List.foldl_cons]
    refine ih (compareCandidate st hd) ?_ (fun p hp => hl p (List.mem_cons_of_mem hd hp))
    rcases compareCandidate_bestID st hd with h | h
    · rw [h]; exact hst
    · rw [h]; exact hl hd (List.mem_cons_self hd t)

/-- From the initial state, the presence of one candidate with size
metadata forces a non-empty selected id (non-empty keys, non-negative
sizes). -/
theorem foldl_bestID_of_some :
    ∀ (l : List (String × AssetDetails)) (st : BestState),
      st.bestID = "" → st.bestSize = -1 →
      (∀ p ∈ l, p.1 ≠ "") →
      (∀ p ∈ l, ∀ ex, p.2.exifInfo = some ex → 0 ≤ ex.fileSizeInByte) →
      (∃ p ∈ l, p.2.exifInfo.isSome) →
      (l.foldl compareCandidate st).bestID ≠ "" := by
  intro l
  induction l with
  | nil =>
    rintro st _ _ _ _ ⟨p, hp, _⟩
    cases hp
  | cons hd t ih =>
    intro st hid hsize hids hnonneg hex
    cases hx : hd.2.exifInfo with
    | some ex =>
      have h0 : 0 ≤ ex.fileSizeInByte :=
        hnonneg hd (List.mem_cons_self hd t) ex hx
      have hlt : st.bestSize < ex.fileSizeInByte := by rw [hsize]; omega
      rw [List.foldl_cons, compareCandidate_gt st hd ex hx hlt]
      exact foldl_bestID_nonempty t _ (hids hd (List.mem_cons_self hd t))
        (fun p hp => hids p (List.mem_cons_of_mem hd hp))
    | none =>
      rw [List.foldl_cons, compareCandidate_none st hd hx]
      refine ih st hid hsize (fun p hp => hids p (List.mem_cons_of_mem hd hp))
        (fun p hp => hnonneg p (List.mem_cons_of_mem hd hp)) ?_
      rcases hex with ⟨p, hp, hps⟩
      rcases List.mem_cons.mp hp with rfl | hp2
      · rw [hx] at hps; cases hps
      · exact ⟨p, hp2, hps⟩

/-- Entries without EXIF metadata can be filtered out of the candidate list
without changing any loop run. -/
theorem foldl_filter_sizeless :
    ∀ (l : List (String × AssetDetails)) (st : BestState),
      l.foldl compareCandidate st
        = (l.filter (fun p => p.2.exifInfo.isSome)).foldl compareCandidate st := by
  intro l
  induction l with
  | nil => intro st; rfl
  | cons hd t ih =>
    intro st
    cases hx : hd.2.exifInfo with
    | none =>
      rw [List.foldl_cons, compareCandidate_none st hd hx, List.filter_cons]
      simp only [hx, Option.isSome_none]
      exact ih st
    | some ex =>
      rw [List.foldl_cons, List.filter_cons]
      simp only [hx, Option.isSome_some, if_pos]
      rw [List.foldl_cons]
      exact ih (compareCandidate st hd)

/-! ## Claims about the filename classifier and the quality ranker -/

/-- C3: isOriginalFilename returns false exactly on filenames that,
case-insensitively, start with one of the fixed prefixes IMG_, DSC_, DSCN,
P_, PHOTO_, VID_; every other filename, including the empty string, is
classified original.  The embedding is a total Bool-valued function, so no
error is possible. -/
theorem isOriginalFilename_spec :
    isOriginalFilename "" = true ∧
    ∀ f : String, isOriginalFilename f = false ↔ specCameraGenerated f := by
  refine ⟨by decide, fun f => ?_⟩
  simp [isOriginalFilename, specCameraGenerated, List.all_eq_false]

/-- Witness for C3 at concrete filenames: img_1234.jpg is camera-generated
and the classifier returns false on it. -/
theorem isOriginalFilename_spec_witness :
    isOriginalFilename "img_1234.jpg" = false :=
  (isOriginalFilename_spec.2 "img_1234.jpg").mpr ⟨"IMG_", by decide, by decide⟩

/-- C1 (code-bug evaluation): on the tied pair (vacation.jpg, size 100,
created at 2) followed by (IMG_0001.jpg, size 100, created at 1), exactly
one candidate is classified original yet the ranker selects the
camera-named one, because the creation-date branch also fires when the
originality classes differ. -/
theorem selectBest_equal_size_original_can_lose :
    isOriginalFilename c1OriginalAsset.originalFileName = true ∧
    isOriginalFilename c1CameraAsset.originalFileName = false ∧
    c1OriginalAsset.exifInfo = some ⟨100, 0, 0⟩ ∧
    c1CameraAsset.exifInfo = some ⟨100, 0, 0⟩ ∧
    selectBestQualityAsset [("a1", c1OriginalAsset), ("a2", c1CameraAsset)] = "a2" :=
  ⟨by decide, by decide, rfl, rfl, by decide⟩

/-- C4: when exactly one candidate has the strictly largest byte size among
the candidates possessing size metadata, the ranker returns it, whatever
the other fields and the iteration order (the statement quantifies over
every association list, hence over every map iteration order). -/
theorem selectBest_returns_unique_largest (assets : List (String × AssetDetails))
    (e : String × AssetDetails) (ex : ExifInfo) (he : e ∈ assets)
    (hex : e.2.exifInfo = some ex) (hpos : 0 ≤ ex.fileSizeInByte)
    (hmax : ∀ p ∈ assets, p ≠ e → ∀ ex2, p.2.exifInfo = some ex2 →
        ex2.fileSizeInByte < ex.fileSizeInByte) :
    selectBestQualityAsset assets = e.1 := by
  unfold selectBestQualityAsset
  rw [foldl_unique_max e ex hex assets initState he (by simp [initState]; omega) hmax]

/-- Witness for C4: the unique largest candidate wins against a smaller
camera-named, later-dated file and a candidate without size metadata. -/
theorem selectBest_returns_unique_largest_witness :
    selectBestQualityAsset
        [("a", ⟨"a", "IMG_1.jpg", some ⟨50, 0, 0⟩, 9⟩),
         ("b", ⟨"b", "b.jpg", some ⟨60, 0, 0⟩, 5⟩),
         ("c", ⟨"c", "c.jpg", none, 0⟩)] = "b" :=
  selectBest_returns_unique_largest _ ("b", ⟨"b", "b.jpg", some ⟨60, 0, 0⟩, 5⟩)
    ⟨60, 0, 0⟩ (by decide) rfl (by decide)
    (by
      intro p hp hne ex2 hex2
      fin_cases hp
      · have h9 : some (⟨50, 0, 0⟩ : ExifInfo) = some ex2 := hex2
        injection h9 with h10
        subst h10
        decide
      · exact absurd rfl hne
      · exact Option.noConfusion (show (none : Option ExifInfo) = some ex2 from hex2))

/-- C5: on a pair tied on byte size and of the same originality class, the
ranker prefers the strictly earlier creation timestamp, and keeps the
first-seen candidate when the timestamps are equal. -/
theorem selectBest_pair_tie_same_class (ia ib : String) (a b : AssetDetails)
    (exa exb : ExifInfo) (ha : a.exifInfo = some exa) (hb : b.exifInfo = some exb)
    (hsz : exb.fileSizeInByte = exa.fileSizeInByte) (hpos : 0 ≤ exa.fileSizeInByte)
    (hia : ia ≠ "")
    (hclass : isOriginalFilename b.originalFileName
        = isOriginalFilename a.originalFileName) :
    selectBestQualityAsset [(ia, a), (ib, b)]
      = if b.fileCreatedAt < a.fileCreatedAt then ib else ia := by
  have h1 : compareCandidate initState (ia, a) = ⟨ia, a, exa.fileSizeInByte⟩ :=
    compareCandidate_gt initState (ia, a) exa ha (by simp [initState]; omega)
  have h2 : compareCandidate ⟨ia, a, exa.fileSizeInByte⟩ (ib, b)
      = if b.fileCreatedAt < a.fileCreatedAt
        then { bestID := ib, bestDetails := b, bestSize := exa.fileSizeInByte }
        else ⟨ia, a, exa.fileSizeInByte⟩ := by
    have h3 := compareCandidate_eq_same_class ⟨ia, a, exa.fileSizeInByte⟩ (ib, b)
      exb hb hsz hia hclass
    simpa using h3
  unfold selectBestQualityAsset
  rw [List.foldl_cons, List.foldl_cons, List.foldl_nil, h1, h2]
  by_cases hdt : b.fileCreatedAt < a.fileCreatedAt
  · simp [hdt]
  · simp [hdt]

/-- Witness for C5: same size, both original filenames, the earlier-dated
second candidate wins (mirrors a test case of the repository). -/
theorem selectBest_pair_tie_same_class_witness :
    selectBestQualityAsset
        [("a1", ⟨"a1", "photo.jpg", some ⟨1000000, 0, 0⟩, 2⟩),
         ("a2", ⟨"a2", "image.jpg", some ⟨1000000, 0, 0⟩, 1⟩)] = "a2" := by
  rw [selectBest_pair_tie_same_class "a1" "a2"
      ⟨"a1", "photo.jpg", some ⟨1000000, 0, 0⟩, 2⟩
      ⟨"a2", "image.jpg", some ⟨1000000, 0, 0⟩, 1⟩
      ⟨1000000, 0, 0⟩ ⟨1000000, 0, 0⟩ rfl rfl rfl (by decide) (by decide) (by decide)]
  decide

/-- C6: candidates without size metadata never influence the ranker (the
run over any list equals the run over the list restricted to candidates
with size metadata), and, for non-empty asset ids and non-negative sizes,
the empty-string sentinel is returned exactly when no candidate carries
size metadata.  The embedding is a total function: no error is raised. -/
theorem selectBest_sentinel_and_sizeless (assets : List (String × AssetDetails)) :
    selectBestQualityAsset assets
        = selectBestQualityAsset (assets.filter (fun p => p.2.exifInfo.isSome)) ∧
    ((∀ p ∈ assets, p.1 ≠ "") →
      (∀ p ∈ assets, ∀ ex, p.2.exifInfo = some ex → 0 ≤ ex.fileSizeInByte) →
      (selectBestQualityAsset assets = "" ↔ ∀ p ∈ assets, p.2.exifInfo = none)) := by
  constructor
  · unfold selectBestQualityAsset
    rw [← foldl_filter_sizeless]
  · intro hids hnn
    constructor
    · intro h p hp
      by_contra hne
      have hsome : p.2.exifInfo.isSome := by
        cases hx : p.2.exifInfo with
        | none => exact absurd hx hne
        | some ex => rfl
      exact foldl_bestID_of_some assets initState rfl rfl hids hnn ⟨p, hp, hsome⟩ h
    · intro h
      have hstab : assets.foldl compareCandidate initState = initState := by
        apply foldl_stable
        intro e he ex hx
        rw [h e he] at hx
        cases hx
      unfold selectBestQualityAsset
      rw [hstab]
      rfl

/-- Witness for C6: a single candidate without size metadata yields the
sentinel. -/
theorem selectBest_sentinel_witness :
    selectBestQualityAsset [(("a" : String), (⟨"a", "f.jpg", none, 0⟩ : AssetDetails))] = "" :=
  ((selectBest_sentinel_and_sizeless _).2 (by decide)
    (by intro p hp ex hex; fin_cases hp; simp_all)).mpr (by decide)

/-- C7 counterexample: two candidates tied on size, originality class and
timestamp; iterating the candidate map in the two possible orders yields
two different selected ids, so the claimed order-independence fails. -/
theorem selectBest_order_dependence_counterexample :
    [("a", tieAssetA), ("b", tieAssetB)].Perm [("b", tieAssetB), ("a", tieAssetA)] ∧
    selectBestQualityAsset [("a", tieAssetA), ("b", tieAssetB)] = "a" ∧
    selectBestQualityAsset [("b", tieAssetB), ("a", tieAssetA)] = "b" :=
  ⟨List.Perm.swap _ _ _, by decide, by decide⟩

/-- C7 (amended): for a fixed iteration sequence the ranker is a pure
function; the result is furthermore independent of the iteration order
whenever the candidates do not tie, for instance when one candidate holds
the strictly largest size among those with size metadata. -/
theorem selectBest_perm_invariant_unique_largest
    (l l2 : List (String × AssetDetails)) (hperm : l.Perm l2)
    (e : String × AssetDetails) (ex : ExifInfo) (he : e ∈ l)
    (hex : e.2.exifInfo = some ex) (hpos : 0 ≤ ex.fileSizeInByte)
    (hmax : ∀ p ∈ l, p ≠ e → ∀ ex2, p.2.exifInfo = some ex2 →
        ex2.fileSizeInByte < ex.fileSizeInByte) :
    selectBestQualityAsset l = selectBestQualityAsset l2 := by
  unfold selectBestQualityAsset
  rw [foldl_unique_max e ex hex l initState he (by simp [initState]; omega) hmax,
    foldl_unique_max e ex hex l2 initState (hperm.mem_iff.mp he)
      (by simp [initState]; omega)
      (fun p hp hpe ex2 hx2 => hmax p (hperm.mem_iff.mpr hp) hpe ex2 hx2)]

/-- Witness for the amended C7: two distinct-size candidates give the same
selection in both iteration orders. -/
theorem selectBest_perm_invariant_witness :
    selectBestQualityAsset
        [("s", ⟨"s", "s.jpg", some ⟨1, 0, 0⟩, 0⟩), ("t", ⟨"t", "t.jpg", some ⟨2, 0, 0⟩, 0⟩)]
      = selectBestQualityAsset
        [("t", ⟨"t", "t.jpg", some ⟨2, 0, 0⟩, 0⟩), ("s", ⟨"s", "s.jpg", some ⟨1, 0, 0⟩, 0⟩)] :=
  selectBest_perm_invariant_unique_largest _ _ (List.Perm.swap _ _ _)
    ("t", ⟨"t", "t.jpg", some ⟨2, 0, 0⟩, 0⟩) ⟨2, 0, 0⟩ (by decide) rfl (by decide)
    (by
      intro p hp hne ex2 hex2
      fin_cases hp
      · have h9 : some (⟨1, 0, 0⟩ : ExifInfo) = some ex2 := hex2
        injection h9 with h10
        subst h10
        decide
      · exact absurd rfl hne)

/-! ## Lemmas about the album reconciler -/

/-- Assets whose album fetch fails contribute nothing to the fetch loop:
the loop result equals the result over the successful assets only. -/
theorem fetchFold_filter (fetch : FetchAlbums) :
    ∀ (assets : List DuplicateAsset) (acc : List (String × List Album) × List String),
      assets.foldl (fetchStep fetch) acc
        = (assets.filter (fetchSucceeds fetch)).foldl (fetchStep fetch) acc := by
  intro assets
  induction assets with
  | nil => intro acc; rfl
  | cons a t ih =>
    intro acc
    cases hfa : fetch a.id with
    | error e =>
      rw [List.foldl_cons, List.filter_cons,
        show fetchSucceeds fetch a = false from by simp [fetchSucceeds, hfa],
        show fetchStep fetch acc a = acc from by simp [fetchStep, hfa]]
      simp only [Bool.false_eq_true, if_false]
      exact ih acc
    | ok albums =>
      rw [List.foldl_cons, List.filter_cons,
        show fetchSucceeds fetch a = true from by simp [fetchSucceeds, hfa]]
      simp only [if_true]
      rw [List.foldl_cons]
      exact ih (fetchStep fetch acc a)

/-- A key already bound in the association-list accumulator keeps its value
through the fetch loop (entries are only appended). -/
theorem fetchFold_lookup_preserved (fetch : FetchAlbums) (aid : String)
    (la : List Album) :
    ∀ (assets : List DuplicateAsset) (acc : List (String × List Album) × List String),
      acc.1.lookup aid = some la →
      ((assets.foldl (fetchStep fetch) acc).1).lookup aid = some la := by
  intro assets
  induction assets with
  | nil => intro acc h; exact h
  | cons a t ih =>
    intro acc h
    rw [List.foldl_cons]
    apply ih
    cases hfa : fetch a.id with
    | error e => simpa [fetchStep, hfa] using h
    | ok albums => simp [fetchStep, hfa, List.lookup_append, h]

/-- A group member whose fetch succeeds with albums la ends up bound to la
in the assetAlbums association list. -/
theorem fetchFold_lookup_ok (fetch : FetchAlbums) (aid : String)
    (la : List Album) (hfa : fetch aid = .ok la) :
    ∀ (assets : List DuplicateAsset) (acc : List (String × List Album) × List String),
      (∃ a ∈ assets, a.id = aid) → acc.1.lookup aid = none →
      ((assets.foldl (fetchStep fetch) acc).1).lookup aid = some la := by
  intro assets
  induction assets with
  | nil =>
    rintro acc ⟨a, ha, _⟩ _
    cases ha
  | cons a t ih =>
    rintro acc ⟨w, hw, hwid⟩ hnone
    rw [List.foldl_cons]
    by_cases ha : a.id = aid
    · have hfaa : fetch a.id = .ok la := by rw [ha]; exact hfa
      apply fetchFold_lookup_preserved fetch aid la t
      rw [show fetchStep fetch acc a
          = (acc.1 ++ [(a.id, la)],
             la.foldl (fun ids album => insertAlbumID ids album.id) acc.2)
        from by simp [fetchStep, hfaa]]
      rw [List.lookup_append, hnone, ha]
      simp
    · have hwt : ∃ b ∈ t, b.id = aid := by
        rcases List.mem_cons.mp hw with rfl | h2
        · exact absurd hwid ha
        · exact ⟨w, h2, hwid⟩
      apply ih (fetchStep fetch acc a) hwt
      cases hfa2 : fetch a.id with
      | error e => simpa [fetchStep, hfa2] using hnone
      | ok albums =>
        rw [show fetchStep fetch acc a
            = (acc.1 ++ [(a.id, albums)],
               albums.foldl (fun ids album => insertAlbumID ids album.id) acc.2)
          from by simp [fetchStep, hfa2]]
        rw [List.lookup_append, hnone]
        simp [List.lookup_cons, show (aid == a.id) = false from
          beq_eq_false_iff_ne.mpr (fun hc => ha hc.symm)]

/-- An asset whose fetch fails is never bound in the assetAlbums
association list. -/
theorem fetchFold_lookup_failed (fetch : FetchAlbums) (aid : String)
    (e : String) (hfa : fetch aid = .error e) :
    ∀ (assets : List DuplicateAsset) (acc : List (String × List Album) × List String),
      acc.1.lookup aid = none →
      ((assets.foldl (fetchStep fetch) acc).1).lookup aid = none := by
  intro assets
  induction assets with
  | nil => intro acc h; exact h
  | cons a t ih =>
    intro acc h
    rw [List.foldl_cons]
    apply ih
    cases hfa2 : fetch a.id with
    | error e2 => simpa [fetchStep, hfa2] using h
    | ok albums =>
      have ha : a.id ≠ aid := by
        intro hc
        rw [hc, hfa] at hfa2
        cases hfa2
      rw [show fetchStep fetch acc a
          = (acc.1 ++ [(a.id, albums)],
             albums.foldl (fun ids album => insertAlbumID ids album.id) acc.2)
        from by simp [fetchStep, hfa2]]
      rw [List.lookup_append, h]
      simp [List.lookup_cons, show (aid == a.id) = false from
        beq_eq_false_iff_ne.mpr (fun hc => ha hc.symm)]

/-- Membership in the insert-if-absent set update. -/
theorem mem_insertAlbumID (ids : List String) (x y : String) :
    y ∈ insertAlbumID ids x ↔ y ∈ ids ∨ y = x := by
  by_cases hx : x ∈ ids
  · simp only [insertAlbumID, if_pos hx]
    constructor
    · exact Or.inl
    · rintro (h | rfl)
      · exact h
      · exact hx
  · simp [insertAlbumID, if_neg hx, List.mem_append]

/-- Membership in the album-id union after folding one album list. -/
theorem mem_albumFold (albums : List Album) :
    ∀ (ids : List String) (y : String),
      y ∈ albums.foldl (fun ids album => insertAlbumID ids album.id) ids ↔
        y ∈ ids ∨ ∃ alb ∈ albums, alb.id = y := by
  induction albums with
  | nil => simp
  | cons a t ih =>
    intro ids y
    rw [List.foldl_cons, ih, mem_insertAlbumID]
    constructor
    · rintro ((h | rfl) | ⟨alb, ha, rfl⟩)
      · exact Or.inl h
      · exact Or.inr ⟨a, List.mem_cons_self a t, rfl⟩
      · exact Or.inr ⟨alb, List.mem_cons_of_mem a ha, rfl⟩
    · rintro (h | ⟨alb, ha, rfl⟩)
      · exact Or.inl (Or.inl h)
      · rcases List.mem_cons.mp ha with rfl | h2
        · exact Or.inl (Or.inr rfl)
        · exact Or.inr ⟨alb, h2, rfl⟩

/-- Every album id in the allAlbumIDs union originates from a successful
fetch of some visited asset. -/
theorem mem_fetchFold_union (fetch : FetchAlbums) :
    ∀ (assets : List DuplicateAsset)
      (acc : List (String × List Album) × List String) (x : String),
      x ∈ (assets.foldl (fetchStep fetch) acc).2 →
        x ∈ acc.2 ∨ ∃ a ∈ assets, ∃ la, fetch a.id = .ok la ∧ ∃ alb ∈ la, alb.id = x := by
  intro assets
  induction assets with
  | nil => intro acc x h; exact Or.inl h
  | cons a t ih =>
    intro acc x h
    rw [List.foldl_cons] at h
    cases hfa : fetch a.id with
    | error e =>
      rw [show fetchStep fetch acc a = acc from by simp [fetchStep, hfa]] at h
      rcases ih acc x h with h0 | ⟨b, hb, rest⟩
      · exact Or.inl h0
      · exact Or.inr ⟨b, List.mem_cons_of_mem a hb, rest⟩
    | ok albums =>
      rw [show fetchStep fetch acc a
          = (acc.1 ++ [(a.id, albums)],
             albums.foldl (fun ids album => insertAlbumID ids album.id) acc.2)
        from by simp [fetchStep, hfa]] at h
      rcases ih _ x h with h0 | ⟨b, hb, rest⟩
      · rcases (mem_albumFold albums acc.2 x).mp h0 with h1 | ⟨alb, halb, hid⟩
        · exact Or.inl h1
        · exact Or.inr ⟨a, List.mem_cons_self a t, albums, hfa, alb, halb, hid⟩
      · exact Or.inr ⟨b, List.mem_cons_of_mem a hb, rest⟩

/-- The per-album loop is a no-op over albums with no missing assets. -/
theorem syncFold_stable (config : Config) (add : AddAssets)
    (assetAlbums : List (String × List Album)) (assets : List DuplicateAsset) :
    ∀ (albumIDs : List String) (acc : Nat × List SyncWrite),
      (∀ x ∈ albumIDs, assetsToAddFor assetAlbums assets x = []) →
      albumIDs.foldl (syncStep config add assetAlbums assets) acc = acc := by
  intro albumIDs
  induction albumIDs with
  | nil => intro acc _; rfl
  | cons hd t ih =>
    intro acc h
    rw [List.foldl_cons,
      show syncStep config add assetAlbums assets acc hd = acc from by
        simp [syncStep, h hd (List.mem_cons_self hd t)]]
    exact ih acc (fun x hx => h x (List.mem_cons_of_mem hd hx))

/-- In dry-run the per-album loop issues no writes. -/
theorem syncFold_dry_writes (config : Config) (add : AddAssets)
    (assetAlbums : List (String × List Album)) (assets : List DuplicateAsset)
    (hdry : config.dryRun = true) :
    ∀ (albumIDs : List String) (acc : Nat × List SyncWrite),
      (albumIDs.foldl (syncStep config add assetAlbums assets) acc).2 = acc.2 := by
  intro albumIDs
  induction albumIDs with
  | nil => intro acc; rfl
  | cons hd t ih =>
    intro acc
    rw [List.foldl_cons]
    by_cases hl : 0 < (assetsToAddFor assetAlbums assets hd).length
    · rw [show syncStep config add assetAlbums assets acc hd
          = (acc.1 + (assetsToAddFor assetAlbums assets hd).length, acc.2) from by
        simp [syncStep, hl, hdry]]
      exact ih _
    · rw [show syncStep config add assetAlbums assets acc hd = acc from by
        simp [syncStep, hl]]
      exact ih acc

/-- When every write succeeds, dry-run and live runs of the per-album loop
produce the same count. -/
theorem syncFold_dry_wet_count (cfgD cfgW : Config) (add : AddAssets)
    (assetAlbums : List (String × List Album)) (assets : List DuplicateAsset)
    (hD : cfgD.dryRun = true) (hW : cfgW.dryRun = false)
    (hok : ∀ albumID ids, add albumID ids = .ok ()) :
    ∀ (albumIDs : List String) (n : Nat) (w1 w2 : List SyncWrite),
      (albumIDs.foldl (syncStep cfgD add assetAlbums assets) (n, w1)).1
        = (albumIDs.foldl (syncStep cfgW add assetAlbums assets) (n, w2)).1 := by
  intro albumIDs
  induction albumIDs with
  | nil => intro n w1 w2; rfl
  | cons hd t ih =>
    intro n w1 w2
    rw [List.foldl_cons, List.foldl_cons]
    by_cases hl : 0 < (assetsToAddFor assetAlbums assets hd).length
    · rw [show syncStep cfgD add assetAlbums assets (n, w1) hd
          = (n + (assetsToAddFor assetAlbums assets hd).length, w1) from by
        simp [syncStep, hl, hD]]
      rw [show syncStep cfgW add assetAlbums assets (n, w2) hd
          = (n + (assetsToAddFor assetAlbums assets hd).length,
             w2 ++ [⟨hd, assetsToAddFor assetAlbums assets hd, true⟩]) from by
        simp [syncStep, hl, hW, hok]]
      exact ih _ _ _
    · rw [show syncStep cfgD add assetAlbums assets (n, w1) hd = (n, w1) from by
        simp [syncStep, hl]]
      rw [show syncStep cfgW add assetAlbums assets (n, w2) hd = (n, w2) from by
        simp [syncStep, hl]]
      exact ih _ _ _

/-- Appending one write changes the added-pairs count by its batch size
when it succeeded and not at all otherwise. -/
theorem addedPairsCount_append (w : List SyncWrite) (x : SyncWrite) :
    addedPairsCount (w ++ [x])
      = addedPairsCount w + (if x.ok then x.assetIDs.length else 0) := by
  by_cases hx : x.ok
  · simp [addedPairsCount, List.filter_append, hx]
  · simp [addedPairsCount, List.filter_append, hx]

/-- Outside dry-run, the loop count equals the added-pairs count of the
writes issued so far. -/
theorem syncFold_wet_count (config : Config) (add : AddAssets)
    (assetAlbums : List (String × List Album)) (assets : List DuplicateAsset)
    (hW : config.dryRun = false) :
    ∀ (albumIDs : List String) (acc : Nat × List SyncWrite),
      acc.1 = addedPairsCount acc.2 →
      (albumIDs.foldl (syncStep config add assetAlbums assets) acc).1
        = addedPairsCount
            (albumIDs.foldl (syncStep config add assetAlbums assets) acc).2 := by
  intro albumIDs
  induction albumIDs with
  | nil => intro acc h; exact h
  | cons hd t ih =>
    intro acc h
    rw [List.foldl_cons]
    by_cases hl : 0 < (assetsToAddFor assetAlbums assets hd).length
    · cases hadd : add hd (assetsToAddFor assetAlbums assets hd) with
      | error e =>
        rw [show syncStep config add assetAlbums assets acc hd
            = (acc.1, acc.2 ++ [⟨hd, assetsToAddFor assetAlbums assets hd, false⟩]) from by
          simp [syncStep, hl, hW, hadd]]
        apply ih
        rw [addedPairsCount_append]
        simpa using h
      | ok u =>
        rw [show syncStep config add assetAlbums assets acc hd
            = (acc.1 + (assetsToAddFor assetAlbums assets hd).length,
               acc.2 ++ [⟨hd, assetsToAddFor assetAlbums assets hd, true⟩]) from by
          simp [syncStep, hl, hW, hadd]]
        apply ih
        rw [addedPairsCount_append]
        simpa using h
    · rw [show syncStep config add assetAlbums assets acc hd = acc from by
        simp [syncStep, hl]]
      exact ih acc h

/-- Over a group whose successfully fetched assets share the same album-id
sets, the reconciler performs no writes and returns count 0. -/
theorem sync_identical_zero (config : Config) (fetch : FetchAlbums)
    (add : AddAssets) (group : DuplicateGroup)
    (hfetch : ∀ a ∈ group.assets, ∃ la, fetch a.id = .ok la)
    (hsame : ∀ a ∈ group.assets, ∀ b ∈ group.assets, ∀ la lb,
        fetch a.id = .ok la → fetch b.id = .ok lb →
        ∀ x, la.any (fun alb => alb.id == x) = lb.any (fun alb => alb.id == x)) :
    synchronizeAlbums config fetch add group = (0, [], none) := by
  have hempty : ∀ x ∈ (fetchAssetAlbums fetch group.assets).2,
      assetsToAddFor (fetchAssetAlbums fetch group.assets).1 group.assets x = [] := by
    intro x hx
    rcases mem_fetchFold_union fetch group.assets ([], []) x hx with h0 | ⟨a0, ha0, la0, hfa0, alb0, halb0, hid0⟩
    · cases h0
    · unfold assetsToAddFor
      have hfilter : group.assets.filter (fun asset =>
          !((lookupAlbums (fetchAssetAlbums fetch group.assets).1 asset.id).any
            (fun album => album.id == x))) = [] := by
        apply List.filter_eq_nil_iff.mpr
        intro b hb
        rcases hfetch b hb with ⟨lb, hfb⟩
        have hlook : (fetchAssetAlbums fetch group.assets).1.lookup b.id = some lb :=
          fetchFold_lookup_ok fetch b.id lb hfb group.assets ([], []) ⟨b, hb, rfl⟩ rfl
        have hany : lb.any (fun alb => alb.id == x) = true := by
          rw [hsame b hb a0 ha0 lb la0 hfb hfa0 x]
          exact List.any_eq_true.mpr ⟨alb0, halb0, beq_iff_eq.mpr hid0⟩
        simp [lookupAlbums, hlook, hany]
      rw [hfilter]
      rfl
  have hloop := syncFold_stable config add (fetchAssetAlbums fetch group.assets).1
    group.assets (fetchAssetAlbums fetch group.assets).2 (0, []) hempty
  simp only [synchronizeAlbums]
  rw [hloop]

/-- Over a two-asset group where the first asset is in album x and the
second is in no album, exactly one addition (second asset into x) is
issued and the count is 1. -/
theorem sync_single_addition (config : Config) (fetch : FetchAlbums)
    (add : AddAssets) (gid aid bid : String) (x : Album)
    (hne : aid ≠ bid) (hfa : fetch aid = .ok [x]) (hfb : fetch bid = .ok [])
    (hadd : add x.id [bid] = .ok ()) (hdry : config.dryRun = false) :
    synchronizeAlbums config fetch add ⟨gid, [⟨aid⟩, ⟨bid⟩]⟩
      = (1, [⟨x.id, [bid], true⟩], none) := by
  have hba : (bid == aid) = false := beq_eq_false_iff_ne.mpr (fun hc => hne hc.symm)
  have hfetched : fetchAssetAlbums fetch [⟨aid⟩, ⟨bid⟩]
      = ([(aid, [x]), (bid, [])], [x.id]) := by
    simp [fetchAssetAlbums, fetchStep, hfa, hfb, insertAlbumID]
  have htoAdd : assetsToAddFor [(aid, [x]), (bid, [])] [⟨aid⟩, ⟨bid⟩] x.id = [bid] := by
    simp [assetsToAddFor, lookupAlbums, List.lookup_cons, hba]
  simp [synchronizeAlbums, hfetched, syncStep, htoAdd, hdry, hadd]

/-- Outside dry-run the returned count equals the number of (asset, album)
pairs in the successful writes. -/
theorem sync_count_is_added_pairs (config : Config) (fetch : FetchAlbums)
    (add : AddAssets) (group : DuplicateGroup) (hdry : config.dryRun = false) :
    (synchronizeAlbums config fetch add group).1
      = addedPairsCount (synchronizeAlbums config fetch add group).2.1 :=
  syncFold_wet_count config add (fetchAssetAlbums fetch group.assets).1 group.assets
    hdry (fetchAssetAlbums fetch group.assets).2 (0, []) rfl

/-- In dry-run, auto-deletion issues no delete calls. -/
theorem autoDelete_dry_no_calls (config : Config) (getDetails : GetDetails)
    (del : DeleteCall) (input : Except String String) (group : DuplicateGroup)
    (hdry : config.dryRun = true) :
    (autoDeleteDuplicates config getDetails del input group).deleteCalls = [] := by
  unfold autoDeleteDuplicates
  by_cases h1 : (fetchDetailsPhase getDetails group.assets).length < 2
  · simp [h1]
  · by_cases h2 : selectBestQualityAsset (fetchDetailsPhase getDetails group.assets) = ""
    · simp [h1, h2]
    · by_cases h3 : (((fetchDetailsPhase getDetails group.assets).map Prod.fst).filter
          (fun assetID => assetID
            != selectBestQualityAsset (fetchDetailsPhase getDetails group.assets))).length = 0
      · simp [h1, h2, h3]
      · by_cases h4 : confirmProceed config input = true
        · simp [h1, h2, h3, h4, hdry]
        · simp [h1, h2, h3, h4]

/-- Dry-run logs exactly as many would-be deletions as a run with
confirmation suppressed would attempt. -/
theorem autoDelete_dry_wet_length (cfgD cfgW : Config) (getDetails : GetDetails)
    (del : DeleteCall) (input : Except String String) (group : DuplicateGroup)
    (hD : cfgD.dryRun = true) (hW : cfgW.dryRun = false) (hY : cfgW.yes = true) :
    (autoDeleteDuplicates cfgD getDetails del input group).wouldDelete.length
      = (autoDeleteDuplicates cfgW getDetails del input group).deleteCalls.length := by
  have hcD : confirmProceed cfgD input = true := by simp [confirmProceed, hD]
  have hcW : confirmProceed cfgW input = true := by simp [confirmProceed, hY]
  unfold autoDeleteDuplicates
  by_cases h1 : (fetchDetailsPhase getDetails group.assets).length < 2
  · simp [h1]
  · by_cases h2 : selectBestQualityAsset (fetchDetailsPhase getDetails group.assets) = ""
    · simp [h1, h2]
    · by_cases h3 : (((fetchDetailsPhase getDetails group.assets).map Prod.fst).filter
          (fun assetID => assetID
            != selectBestQualityAsset (fetchDetailsPhase getDetails group.assets))).length = 0
      · simp [h1, h2, h3]
      · simp [h1, h2, h3, hcD, hcW, hD, hW]

/-! ## Claims about the album reconciler and the group processor -/

/-- C2 counterexample: in the concrete group (A, B) where the album fetch
for A fails and B is in album X, the reconciler issues the addition of A to
X and counts it, so the failed-fetch asset is not skipped in the addition
phase. -/
theorem sync_failed_fetch_asset_is_added :
    c2Fetch "A" = .error "network failure" ∧
    (⟨"A"⟩ : DuplicateAsset) ∈ c2Group.assets ∧
    synchronizeAlbums wetConfig c2Fetch okAdd c2Group
      = (1, [⟨"X", ["A"], true⟩], none) :=
  ⟨rfl, by decide, by decide⟩

/-- C2 (amended): an asset whose album fetch fails contributes nothing to
the fetched state (the loop result equals the one over the successful
assets only) and the failure is not fatal (the returned error is nil); but
the asset is not skipped in the addition phase: being bound to no album, it
appears among the assets to add for every album of the union. -/
theorem sync_failed_fetch_characterization
    (config : Config) (fetch : FetchAlbums) (add : AddAssets)
    (group : DuplicateGroup) (asset : DuplicateAsset) (e : String)
    (hmem : asset ∈ group.assets) (hfail : fetch asset.id = .error e) :
    fetchAssetAlbums fetch group.assets
        = fetchAssetAlbums fetch (group.assets.filter (fetchSucceeds fetch)) ∧
    (∀ albumID ∈ (fetchAssetAlbums fetch group.assets).2,
      asset.id ∈ assetsToAddFor (fetchAssetAlbums fetch group.assets).1
        group.assets albumID) ∧
    (synchronizeAlbums config fetch add group).2.2 = none := by
  refine ⟨fetchFold_filter fetch group.assets ([], []), ?_, rfl⟩
  intro albumID hu
  have hlook : (fetchAssetAlbums fetch group.assets).1.lookup asset.id = none :=
    fetchFold_lookup_failed fetch asset.id e hfail group.assets ([], []) rfl
  unfold assetsToAddFor
  apply List.mem_map.mpr
  refine ⟨asset, List.mem_filter.mpr ⟨hmem, ?_⟩, rfl⟩
  simp [lookupAlbums, hlook]

/-- Witness for the amended C2: in the concrete group (A, B) with A failing,
A is among the assets to add for album X of the union. -/
theorem sync_failed_fetch_characterization_witness :
    "A" ∈ assetsToAddFor (fetchAssetAlbums c2Fetch c2Group.assets).1
      c2Group.assets "X" :=
  (sync_failed_fetch_characterization wetConfig c2Fetch okAdd c2Group ⟨"A"⟩
    "network failure" (by decide) rfl).2.1 "X" (by decide)

/-- C8: the reconciler issues exactly the needed additions and returns
their count: identical album sets give zero writes and count 0; one
missing membership gives exactly one addition and count 1; in general the
returned count equals the number of (asset, album) pairs in the successful
writes. -/
theorem sync_counts_additions :
    (∀ (config : Config) (fetch : FetchAlbums) (add : AddAssets)
        (group : DuplicateGroup),
      (∀ a ∈ group.assets, ∃ la, fetch a.id = .ok la) →
      (∀ a ∈ group.assets, ∀ b ∈ group.assets, ∀ la lb,
        fetch a.id = .ok la → fetch b.id = .ok lb →
        ∀ x, la.any (fun alb => alb.id == x) = lb.any (fun alb => alb.id == x)) →
      synchronizeAlbums config fetch add group = (0, [], none)) ∧
    (∀ (config : Config) (fetch : FetchAlbums) (add : AddAssets)
        (gid aid bid : String) (x : Album),
      aid ≠ bid → fetch aid = .ok [x] → fetch bid = .ok [] →
      add x.id [bid] = .ok () → config.dryRun = false →
      synchronizeAlbums config fetch add ⟨gid, [⟨aid⟩, ⟨bid⟩]⟩
        = (1, [⟨x.id, [bid], true⟩], none)) ∧
    (∀ (config : Config) (fetch : FetchAlbums) (add : AddAssets)
        (group : DuplicateGroup), config.dryRun = false →
      (synchronizeAlbums config fetch add group).1
        = addedPairsCount (synchronizeAlbums config fetch add group).2.1) :=
  ⟨fun config fetch add group hfetch hsame =>
      sync_identical_zero config fetch add group hfetch hsame,
   fun config fetch add gid aid bid x hne hfa hfb hadd hdry =>
      sync_single_addition config fetch add gid aid bid x hne hfa hfb hadd hdry,
   fun config fetch add group hdry =>
      sync_count_is_added_pairs config fetch add group hdry⟩

/-- Witness for C8: the one-missing-membership scenario at concrete values
issues exactly the addition of B to X with count 1. -/
theorem sync_counts_additions_witness :
    synchronizeAlbums wetConfig c8Fetch okAdd ⟨"g", [⟨"A"⟩, ⟨"B"⟩]⟩
      = (1, [⟨"X", ["B"], true⟩], none) :=
  sync_counts_additions.2.1 wetConfig c8Fetch okAdd "g" "A" "B" ⟨"X", "Album X"⟩
    (by decide) rfl rfl rfl rfl

/-- C9: preview mode performs no gateway writes while reporting the same
counts: dry-run album synchronization issues no addAssetsToAlbum call yet
(when the gateway accepts every write) returns the count the live run
returns, and dry-run deletion issues no deleteAsset call yet logs as many
would-be deletions as a confirmation-suppressed live run attempts. -/
theorem preview_counts_without_writes :
    (∀ (config : Config) (fetch : FetchAlbums) (add : AddAssets)
        (group : DuplicateGroup),
      (synchronizeAlbums { config with dryRun := true } fetch add group).2.1 = [] ∧
      ((∀ albumID ids, add albumID ids = .ok ()) →
        (synchronizeAlbums { config with dryRun := true } fetch add group).1
          = (synchronizeAlbums { config with dryRun := false } fetch add group).1)) ∧
    (∀ (config : Config) (getDetails : GetDetails) (del : DeleteCall)
        (input : Except String String) (group : DuplicateGroup),
      (autoDeleteDuplicates { config with dryRun := true }
          getDetails del input group).deleteCalls = [] ∧
      (autoDeleteDuplicates { config with dryRun := true }
          getDetails del input group).wouldDelete.length
        = (autoDeleteDuplicates { config with dryRun := false, yes := true }
            getDetails del input group).deleteCalls.length) :=
  ⟨fun config fetch add group =>
    ⟨syncFold_dry_writes { config with dryRun := true } add
        (fetchAssetAlbums fetch group.assets).1 group.assets rfl
        (fetchAssetAlbums fetch group.assets).2 (0, []),
     fun hok =>
      syncFold_dry_wet_count { config with dryRun := true }
        { config with dryRun := false } add
        (fetchAssetAlbums fetch group.assets).1 group.assets rfl rfl hok
        (fetchAssetAlbums fetch group.assets).2 0 [] []⟩,
   fun config getDetails del input group =>
    ⟨autoDelete_dry_no_calls { config with dryRun := true } getDetails del input
        group rfl,
     autoDelete_dry_wet_length { config with dryRun := true }
        { config with dryRun := false, yes := true } getDetails del input group
        rfl rfl rfl⟩⟩

/-- Witness for C9: with an always-succeeding gateway, the dry and live
counts agree on the concrete (A, B) scenario. -/
theorem preview_counts_without_writes_witness :
    (synchronizeAlbums { wetConfig with dryRun := true } c8Fetch okAdd c2Group).1
      = (synchronizeAlbums { wetConfig with dryRun := false } c8Fetch okAdd c2Group).1 :=
  (preview_counts_without_writes.1 wetConfig c8Fetch okAdd c2Group).2
    (fun _ _ => rfl)

/-- C10: synchronizeAlbums returns nil as its error for every gateway
behavior, so the album-synchronization-failure abort of
processDuplicateGroup is unreachable. -/
theorem sync_never_errors (config : Config) (fetch : FetchAlbums)
    (add : AddAssets) (getDetails : GetDetails) (del : DeleteCall)
    (input : Except String String) (group : DuplicateGroup) :
    (synchronizeAlbums config fetch add group).2.2 = none ∧
    ∀ e, processDuplicateGroup config fetch add getDetails del input group
        ≠ GroupOutcome.albumSyncFailed e := by
  refine ⟨rfl, ?_⟩
  intro e
  unfold processDuplicateGroup
  by_cases h1 : group.assets.length < 2
  · simp [h1]
  · by_cases h2 : config.autoDelete = true
    · cases hrun : (autoDeleteDuplicates config getDetails del input group).err with
      | some e2 => simp [h1, h2, synchronizeAlbums, hrun]
      | none => simp [h1, h2, synchronizeAlbums, hrun]
    · simp [h1, h2, synchronizeAlbums]

end Immich
